import Mathlib

/-!
Shallow embedding of the Go Lambda function
`aws-lambda-auto-update-security-group-ips`, which reconciles a security
group's ingress rules with the public IPs of an autoscaling group's
instances.  Two near-duplicate variants of the core exist in the source:

* `src/unnamed/part_002` (the fuller variant): port 443, lifecycle-hook
  acknowledgments via `sendResponseToASG`, and exclusion of the instance
  named in a TERMINATING event.  Embedded here as `Handler`,
  `getASGPublicIPs`, `processReservation`.
* `src/main.go`: port range 0-65535, no acknowledgments, no exclusion of
  the terminating instance.  Embedded as `HandlerV1`, `getASGPublicIPsV1`,
  `processReservationV1`.

Go maps keyed by CIDR string (value = the same string) are modelled as
lists of keys with duplicate-skipping insertion (`mapInsert`), which keeps
insertion order; iteration order of a Go map is arbitrary, so theorems
about the diff quantify over arbitrary enumerations and are stated up to
set membership / permutation.  Go `nil`-pointer string dereference via
`aws.StringValue` yields `""`, so optional strings are plain `String` with
`""` for absent.  A Go runtime panic (indexing `[0]` into an empty slice)
is modelled by the `crashed` outcome.  Provider calls that mutate state
(`AuthorizeSecurityGroupIngress`, `RevokeSecurityGroupIngress`,
`CompleteLifecycleAction`) are recorded in an emitted trace.
-/

namespace AutoUpdateSG

/-- The `detail` field of the CloudWatch event (`Detail` in the source). -/
structure Detail where
  lifecycleHookName : String
  autoScalingGroupName : String
  lifecycleActionToken : String
  lifecycleTransition : String
  ec2InstanceID : String
deriving DecidableEq

/-- `Response` from the source: the lists of added / removed IPs. -/
structure Response where
  addedIPs : List String
  removedIPs : List String
deriving DecidableEq

/-- The part of an EC2 instance description that the code reads:
`InstanceId`, `State.Name` and `PublicIpAddress` (each through
`aws.StringValue`, so an absent pointer is `""`). -/
structure RsvInstance where
  instanceId : String
  stateName : String
  publicIpAddress : String
deriving DecidableEq

/-- One reservation of a `DescribeInstances` response; the code reads
`rsv.Instances[0]`, which panics when the list is empty. -/
structure Reservation where
  instances : List RsvInstance
deriving DecidableEq

/-- The part of a `DescribeAutoScalingGroups` group the code reads: the
member instance ids. -/
structure ASGGroup where
  instances : List String
deriving DecidableEq

/-- `ec2.IpRange`: a single CIDR. -/
structure IpRange where
  cidrIp : String
deriving DecidableEq

/-- `ec2.IpPermission` as built / read by the code. -/
structure IpPermission where
  fromPort : Int
  toPort : Int
  ipRanges : List IpRange
  ipProtocol : String
deriving DecidableEq

/-- The part of a security-group description the code reads. -/
structure SecurityGroup where
  ipPermissions : List IpPermission
deriving DecidableEq

/-- Errors surfaced by the embedded functions: either an error returned by
a provider call, or the distinguished `errors.New("autoscaling group
response is empty")` value produced when the group description is
empty/absent. -/
inductive GErr where
  | provider : String → GErr
  | emptyASGResponse : GErr
deriving DecidableEq

/-- Result of running a piece of Go code: normal value, error return, or a
runtime panic (out-of-range slice index). -/
inductive GoResult (α : Type) where
  | ok : α → GoResult α
  | err : GErr → GoResult α
  | crashed : GoResult α
deriving DecidableEq

/-- Insertion into a Go map-used-as-set (`m[k] = k`): a repeated key
overwrites, so membership-preserving; modelled on the key list by skipping
keys already present. -/
def mapInsert (m : List String) (k : String) : List String :=
  if k ∈ m then m else m ++ [k]

/-- `getIPsToAdd` from the source: keys of the ASG map that are not keys
of the SG map (`if _, ok := sgIPs[i]; !ok`), in iteration order. -/
def getIPsToAdd (asgIPs sgIPs : List String) : List String :=
  asgIPs.filter (fun i => !(sgIPs.contains i))

/-- `getIPsToRemove` from the source: keys of the SG map that are not keys
of the ASG map, in iteration order. -/
def getIPsToRemove (sgIPs asgIPs : List String) : List String :=
  sgIPs.filter (fun i => !(asgIPs.contains i))

/-- `getSGIPs` from the source: on a provider error, that error; indexing
`SecurityGroups[0]` of an empty list panics; otherwise, when the group has
at least one permission entry, the CIDRs of the FIRST entry's ranges are
collected into the map; with zero entries the map stays empty. -/
def getSGIPs (descSG : Except String (List SecurityGroup)) :
    GoResult (List String) :=
  match descSG with
  | .error e => .err (.provider e)
  | .ok [] => .crashed
  | .ok (sg :: _) =>
    match sg.ipPermissions with
    | [] => .ok []
    | perm :: _ => .ok (perm.ipRanges.foldl (fun m r => mapInsert m r.cidrIp) [])

/-- The body of the per-reservation loop in `getASGPublicIPs` of
`src/unnamed/part_002`: reads `rsv.Instances[0]` (panic on empty, hence
`none`), `continue`s when the event is a TERMINATING transition naming
this instance, and otherwise inserts `publicIp ++ "/32"` when the state is
neither shutting-down nor terminated and the public IP is non-empty. -/
def processReservation (ev : Detail) (ips : List String) (rsv : Reservation) :
    Option (List String) :=
  match rsv.instances with
  | [] => none
  | rsvInst :: _ =>
    if ev.lifecycleTransition = "autoscaling:EC2_INSTANCE_TERMINATING" ∧
        rsvInst.instanceId = ev.ec2InstanceID then
      some ips
    else if rsvInst.stateName ≠ "shutting-down" ∧ rsvInst.stateName ≠ "terminated" ∧
        rsvInst.publicIpAddress ≠ "" then
      some (mapInsert ips (rsvInst.publicIpAddress ++ "/32"))
    else
      some ips

/-- The per-reservation loop body of `getASGPublicIPs` in `src/main.go`:
identical to `processReservation` except that the instance named in the
event is never excluded. -/
def processReservationV1 (ips : List String) (rsv : Reservation) :
    Option (List String) :=
  match rsv.instances with
  | [] => none
  | rsvInst :: _ =>
    if rsvInst.stateName ≠ "shutting-down" ∧ rsvInst.stateName ≠ "terminated" ∧
        rsvInst.publicIpAddress ≠ "" then
      some (mapInsert ips (rsvInst.publicIpAddress ++ "/32"))
    else
      some ips

/-- Runs a reservation-loop body over the reservations of one
`DescribeInstances` response, propagating a panic (`none`). -/
def processReservations (step : List String → Reservation → Option (List String)) :
    List String → List Reservation → Option (List String)
  | ips, [] => some ips
  | ips, rsv :: rest =>
    match step ips rsv with
    | none => none
    | some ips2 => processReservations step ips2 rest

/-- The member-instance loop of `getASGPublicIPs`: for each member id a
`DescribeInstances` call, whose error aborts the read; its reservations
are then folded with the given loop body. -/
def asgLoop (step : List String → Reservation → Option (List String))
    (descInst : String → Except String (List Reservation)) :
    List String → List String → GoResult (List String)
  | ips, [] => .ok ips
  | ips, id :: rest =>
    match descInst id with
    | .error e => .err (.provider e)
    | .ok rsvs =>
      match processReservations step ips rsvs with
      | none => .crashed
      | some ips2 => asgLoop step descInst ips2 rest

/-- `getASGPublicIPs` from `src/unnamed/part_002`.  `descASG` models the
`DescribeAutoScalingGroups` call: `.error` a provider error, `.ok none`
the empty response (the source detects it by comparing the printed
response with the empty-object sentinel and returns
`errors.New("autoscaling group response is empty")`), `.ok (some g)` a
present group description. -/
def getASGPublicIPs (ev : Detail) (descASG : Except String (Option ASGGroup))
    (descInst : String → Except String (List Reservation)) :
    GoResult (List String) :=
  match descASG with
  | .error e => .err (.provider e)
  | .ok none => .err .emptyASGResponse
  | .ok (some g) => asgLoop (processReservation ev) descInst [] g.instances

/-- `getASGPublicIPs` from `src/main.go`: same structure, but its loop
body never excludes the event's instance. -/
def getASGPublicIPsV1 (descASG : Except String (Option ASGGroup))
    (descInst : String → Except String (List Reservation)) :
    GoResult (List String) :=
  match descASG with
  | .error e => .err (.provider e)
  | .ok none => .err .emptyASGResponse
  | .ok (some g) => asgLoop processReservationV1 descInst [] g.instances

/-- `HTTPSPort` constant of `src/unnamed/part_002`. -/
def HTTPSPort : Int := 443

/-- `TCPProtocol` constant. -/
def TCPProtocol : String := "tcp"

/-- `LifecycleActionResultContinue` constant. -/
def LifecycleActionResultContinue : String := "CONTINUE"

/-- `LifecycleActionResultAbandon` constant. -/
def LifecycleActionResultAbandon : String := "ABANDON"

/-- Input of an authorize / revoke call (`AuthorizeSecurityGroupIngressInput`
and `RevokeSecurityGroupIngressInput` have the same shape as read by this
code). -/
structure MutationInput where
  groupId : String
  ipPermissions : List IpPermission
deriving DecidableEq

/-- Input of a `CompleteLifecycleAction` call. -/
structure AckInput where
  autoScalingGroupName : String
  instanceId : String
  lifecycleActionResult : String
  lifecycleActionToken : String
  lifecycleHookName : String
deriving DecidableEq

/-- A state-mutating provider call recorded in the handler's trace.  The
`Bool` on `completeLifecycleAction` records whether the provider accepted
the call; the source discards this outcome. -/
inductive ProviderCall where
  | authorize : MutationInput → ProviderCall
  | revoke : MutationInput → ProviderCall
  | completeLifecycleAction : AckInput → Bool → ProviderCall
deriving DecidableEq

/-- The provider / process environment one invocation runs against. -/
structure Env where
  sessionErr : Option String
  descASG : Except String (Option ASGGroup)
  descInst : String → Except String (List Reservation)
  descSG : Except String (List SecurityGroup)
  authorizeErr : Option String
  revokeErr : Option String
  ackErr : Option String
  sgID : String

/-- `sendResponseToASG` from `src/unnamed/part_002`: fires a
`CompleteLifecycleAction` built from the event's detail; the call's result
is dropped by the source, so here it is only recorded in the trace. -/
def sendResponseToASG (env : Env) (request : Detail) (status : String) :
    ProviderCall :=
  .completeLifecycleAction
    { autoScalingGroupName := request.autoScalingGroupName
      instanceId := request.ec2InstanceID
      lifecycleActionResult := status
      lifecycleActionToken := request.lifecycleActionToken
      lifecycleHookName := request.lifecycleHookName }
    env.ackErr.isNone

/-- The permission list built by the authorize/revoke loops: ONE
`IpPermission` per CIDR, each with a singleton `IpRanges`. -/
def mkPermissions (fromPort toPort : Int) (ips : List String) :
    List IpPermission :=
  ips.map (fun ip =>
    { fromPort := fromPort, toPort := toPort,
      ipRanges := [{ cidrIp := ip }], ipProtocol := TCPProtocol })

/-- What `Handler` returns: the Go `(Response, error)` pair, or a runtime
panic.  On every error return the source's `response` is still the zero
value (both lists empty), which `ret` makes explicit. -/
inductive HandlerResult where
  | ret : Response → Option GErr → HandlerResult
  | crashed : HandlerResult
deriving DecidableEq

/-- The two sequential `if len(...) != 0` blocks of the
`src/unnamed/part_002` `Handler`: authorize (port 443, tcp) when
`ipsToAdd` is non-empty, then revoke when `ipsToRemove` is non-empty; an
error from either aborts with an ABANDON acknowledgment; success sends a
CONTINUE acknowledgment and returns both lists. -/
def convergeV2 (env : Env) (request : Detail)
    (ipsToAdd ipsToRemove : List String) :
    HandlerResult × List ProviderCall :=
  let authCall := ProviderCall.authorize
    { groupId := env.sgID
      ipPermissions := mkPermissions HTTPSPort HTTPSPort ipsToAdd }
  let revokeCall := ProviderCall.revoke
    { groupId := env.sgID
      ipPermissions := mkPermissions HTTPSPort HTTPSPort ipsToRemove }
  if ipsToAdd.length ≠ 0 then
    match env.authorizeErr with
    | some e =>
      (.ret ⟨[], []⟩ (some (.provider e)),
       [authCall, sendResponseToASG env request LifecycleActionResultAbandon])
    | none =>
      if ipsToRemove.length ≠ 0 then
        match env.revokeErr with
        | some e =>
          (.ret ⟨[], []⟩ (some (.provider e)),
           [authCall, revokeCall,
            sendResponseToASG env request LifecycleActionResultAbandon])
        | none =>
          (.ret ⟨ipsToAdd, ipsToRemove⟩ none,
           [authCall, revokeCall,
            sendResponseToASG env request LifecycleActionResultContinue])
      else
        (.ret ⟨ipsToAdd, ipsToRemove⟩ none,
         [authCall, sendResponseToASG env request LifecycleActionResultContinue])
  else
    if ipsToRemove.length ≠ 0 then
      match env.revokeErr with
      | some e =>
        (.ret ⟨[], []⟩ (some (.provider e)),
         [revokeCall, sendResponseToASG env request LifecycleActionResultAbandon])
      | none =>
        (.ret ⟨ipsToAdd, ipsToRemove⟩ none,
         [revokeCall, sendResponseToASG env request LifecycleActionResultContinue])
    else
      (.ret ⟨ipsToAdd, ipsToRemove⟩ none,
       [sendResponseToASG env request LifecycleActionResultContinue])

/-- `Handler` from `src/unnamed/part_002`: session, inventory read, rules
read, diff, converge, acknowledge.  Every provider error returns the zero
`Response` together with the error; failed reads acknowledge ABANDON. -/
def Handler (env : Env) (request : Detail) :
    HandlerResult × List ProviderCall :=
  match env.sessionErr with
  | some e => (.ret ⟨[], []⟩ (some (.provider e)), [])
  | none =>
    match getASGPublicIPs request env.descASG env.descInst with
    | .crashed => (.crashed, [])
    | .err e =>
      (.ret ⟨[], []⟩ (some e),
       [sendResponseToASG env request LifecycleActionResultAbandon])
    | .ok asgIPs =>
      match getSGIPs env.descSG with
      | .crashed => (.crashed, [])
      | .err e =>
        (.ret ⟨[], []⟩ (some e),
         [sendResponseToASG env request LifecycleActionResultAbandon])
      | .ok sgIPs =>
        convergeV2 env request (getIPsToAdd asgIPs sgIPs)
          (getIPsToRemove sgIPs asgIPs)

/-- The converge phase of the `src/main.go` `Handler`: port range
0-65535, no lifecycle acknowledgments. -/
def convergeV1 (env : Env) (ipsToAdd ipsToRemove : List String) :
    HandlerResult × List ProviderCall :=
  let authCall := ProviderCall.authorize
    { groupId := env.sgID
      ipPermissions := mkPermissions 0 65535 ipsToAdd }
  let revokeCall := ProviderCall.revoke
    { groupId := env.sgID
      ipPermissions := mkPermissions 0 65535 ipsToRemove }
  if ipsToAdd.length ≠ 0 then
    match env.authorizeErr with
    | some e => (.ret ⟨[], []⟩ (some (.provider e)), [authCall])
    | none =>
      if ipsToRemove.length ≠ 0 then
        match env.revokeErr with
        | some e => (.ret ⟨[], []⟩ (some (.provider e)), [authCall, revokeCall])
        | none => (.ret ⟨ipsToAdd, ipsToRemove⟩ none, [authCall, revokeCall])
      else
        (.ret ⟨ipsToAdd, ipsToRemove⟩ none, [authCall])
  else
    if ipsToRemove.length ≠ 0 then
      match env.revokeErr with
      | some e => (.ret ⟨[], []⟩ (some (.provider e)), [revokeCall])
      | none => (.ret ⟨ipsToAdd, ipsToRemove⟩ none, [revokeCall])
    else
      (.ret ⟨ipsToAdd, ipsToRemove⟩ none, [])

/-- `Handler` from `src/main.go`: no lifecycle acknowledgments, no
terminating-instance exclusion, port range 0-65535. -/
def HandlerV1 (env : Env) (_request : Detail) :
    HandlerResult × List ProviderCall :=
  match env.sessionErr with
  | some e => (.ret ⟨[], []⟩ (some (.provider e)), [])
  | none =>
    match getASGPublicIPsV1 env.descASG env.descInst with
    | .crashed => (.crashed, [])
    | .err e => (.ret ⟨[], []⟩ (some e), [])
    | .ok asgIPs =>
      match getSGIPs env.descSG with
      | .crashed => (.crashed, [])
      | .err e => (.ret ⟨[], []⟩ (some e), [])
      | .ok sgIPs =>
        convergeV1 env (getIPsToAdd asgIPs sgIPs) (getIPsToRemove sgIPs asgIPs)

/-- The state/address condition under which an examined instance's IP is
inserted (common to both variants). -/
def qualifies (i : RsvInstance) : Prop :=
  i.stateName ≠ "shutting-down" ∧ i.stateName ≠ "terminated" ∧
    i.publicIpAddress ≠ ""

instance (i : RsvInstance) : Decidable (qualifies i) := by
  unfold qualifies; infer_instance

/-- A reservation contributes `x` under the part_002 loop body iff its
first instance is not the excluded terminating instance, qualifies, and
`x` is its `/32` CIDR. -/
def contributesV2 (ev : Detail) (rsv : Reservation) (x : String) : Prop :=
  ∃ i rest, rsv.instances = i :: rest ∧
    ¬ (ev.lifecycleTransition = "autoscaling:EC2_INSTANCE_TERMINATING" ∧
        i.instanceId = ev.ec2InstanceID) ∧
    qualifies i ∧ x = i.publicIpAddress ++ "/32"

/-- A reservation contributes `x` under the main.go loop body iff its
first instance qualifies and `x` is its `/32` CIDR. -/
def contributesV1 (rsv : Reservation) (x : String) : Prop :=
  ∃ i rest, rsv.instances = i :: rest ∧ qualifies i ∧
    x = i.publicIpAddress ++ "/32"

/-- An instance record that the inventory read examines: the FIRST
instance of some reservation returned by the detail lookup of some group
member. -/
def examinedHead (g : ASGGroup)
    (descInst : String → Except String (List Reservation))
    (i : RsvInstance) : Prop :=
  ∃ id ∈ g.instances, ∃ rsvs, descInst id = .ok rsvs ∧
    ∃ rsv ∈ rsvs, ∃ rest, rsv.instances = i :: rest

/-- Trace discriminator: is this call an authorize? -/
def isAuthorizeCall : ProviderCall → Bool
  | .authorize _ => true
  | _ => false

/-- Trace discriminator: is this call a revoke? -/
def isRevokeCall : ProviderCall → Bool
  | .revoke _ => true
  | _ => false

/-- A concrete TERMINATING lifecycle event, used to instantiate theorems
with hypotheses on concrete inputs. -/
def evTerm : Detail :=
  { lifecycleHookName := "hook-1"
    autoScalingGroupName := "asg-1"
    lifecycleActionToken := "token-1"
    lifecycleTransition := "autoscaling:EC2_INSTANCE_TERMINATING"
    ec2InstanceID := "i-1" }

/-- A concrete LAUNCHING lifecycle event. -/
def evLaunch : Detail :=
  { lifecycleHookName := "hook-1"
    autoScalingGroupName := "asg-1"
    lifecycleActionToken := "token-1"
    lifecycleTransition := "autoscaling:EC2_INSTANCE_LAUNCHING"
    ec2InstanceID := "i-1" }

/-- A single-instance reservation for a running instance with the given
public address. -/
def rsvRunning (id ip : String) : Reservation :=
  ⟨[{ instanceId := id, stateName := "running", publicIpAddress := ip }]⟩

/-- A concrete instance-detail lookup table. -/
def descInstOf (tbl : List (String × List Reservation)) :
    String → Except String (List Reservation) :=
  fun id =>
    match tbl.lookup id with
    | some rsvs => .ok rsvs
    | none => .error "instance lookup failed"

/-- Concrete detail lookup: one member whose reservation holds a
terminated instance that still has a public address. -/
def descInstTerminated : String → Except String (List Reservation) :=
  descInstOf [("i-1", [⟨[⟨"i-1", "terminated", "7.7.7.7"⟩]⟩])]

/-- Concrete detail lookup: one member, running, with a public address. -/
def descInstRunning : String → Except String (List Reservation) :=
  descInstOf [("i-1", [rsvRunning "i-1" "3.3.3.3"])]

/-- A concrete environment builder for instantiating handler theorems. -/
def mkEnv (descASG : Except String (Option ASGGroup))
    (descInst : String → Except String (List Reservation))
    (descSG : Except String (List SecurityGroup))
    (authorizeErr revokeErr ackErr : Option String) : Env :=
  { sessionErr := none
    descASG := descASG
    descInst := descInst
    descSG := descSG
    authorizeErr := authorizeErr
    revokeErr := revokeErr
    ackErr := ackErr
    sgID := "sg-1" }

/-- A concrete security-group description whose first permission entry
carries the given CIDRs. -/
def sgOne (cidrs : List String) : Except String (List SecurityGroup) :=
  .ok [⟨[⟨HTTPSPort, HTTPSPort, cidrs.map (fun c => ⟨c⟩), TCPProtocol⟩]⟩]

/-- Environment with zero group members and one stale observed CIDR. -/
def envDrain : Env :=
  mkEnv (.ok (some ⟨[]⟩)) (descInstOf []) (sgOne ["9.9.9.9/32"]) none none none

/-- Environment with zero group members and zero ingress rules. -/
def envZero : Env :=
  mkEnv (.ok (some ⟨[]⟩)) (descInstOf []) (.ok [⟨[]⟩]) none none none

/-- Environment with two running members (two IPs to add) and zero
ingress rules. -/
def envTwoAdds : Env :=
  mkEnv (.ok (some ⟨["i-1", "i-2"]⟩))
    (descInstOf [("i-1", [rsvRunning "i-1" "1.1.1.1"]),
      ("i-2", [rsvRunning "i-2" "2.2.2.2"])])
    (.ok [⟨[]⟩]) none none none

/-- Environment with one IP to add, one stale CIDR to remove, and a
provider that fails the revoke call. -/
def envRevokeFail : Env :=
  mkEnv (.ok (some ⟨["i-1"]⟩))
    (descInstOf [("i-1", [rsvRunning "i-1" "1.1.1.1"])])
    (sgOne ["9.9.9.9/32"]) none (some "revoke failed") none

/-- Truncates every reservation to its first instance. -/
def truncRsvs (rsvs : List Reservation) : List Reservation :=
  rsvs.map (fun r => ⟨r.instances.take 1⟩)

/-- Detail lookup whose single reservation has a second, trailing
instance behind the head. -/
def descInstWithTail : String → Except String (List Reservation) :=
  descInstOf [("i-1", [⟨[⟨"i-1", "running", "1.1.1.1"⟩,
    ⟨"ghost", "running", "8.8.8.8"⟩]⟩])]

/-- `descInstWithTail` truncated to reservation heads. -/
def descInstHeadOnly : String → Except String (List Reservation) :=
  descInstOf [("i-1", [⟨[⟨"i-1", "running", "1.1.1.1"⟩]⟩])]

theorem mem_mapInsert {m : List String} {k x : String} :
    x ∈ mapInsert m k ↔ x ∈ m ∨ x = k := by
  unfold mapInsert
  split
  · constructor
    · exact Or.inl
    · rintro (h | rfl) <;> assumption
  · simp

theorem nodup_mapInsert {m : List String} (k : String) (h : m.Nodup) :
    (mapInsert m k).Nodup := by
  unfold mapInsert
  split
  · exact h
  · rename_i hk
    rw [List.nodup_append]
    refine ⟨h, List.nodup_singleton k, ?_⟩
    intro a ha
    simp only [List.mem_singleton]
    intro heq
    exact hk (heq ▸ ha)

theorem mem_getIPsToAdd {d o : List String} {x : String} :
    x ∈ getIPsToAdd d o ↔ x ∈ d ∧ x ∉ o := by
  simp [getIPsToAdd, List.mem_filter]

theorem mem_getIPsToRemove {d o : List String} {x : String} :
    x ∈ getIPsToRemove o d ↔ x ∈ o ∧ x ∉ d := by
  simp [getIPsToRemove, List.mem_filter]

theorem nodup_getIPsToAdd {d o : List String} (h : d.Nodup) :
    (getIPsToAdd d o).Nodup := h.filter _

theorem nodup_getIPsToRemove {d o : List String} (h : o.Nodup) :
    (getIPsToRemove o d).Nodup := h.filter _

theorem processReservation_some_mem {ev : Detail} {ips : List String}
    {rsv : Reservation} {out : List String}
    (h : processReservation ev ips rsv = some out) (x : String) :
    x ∈ out ↔ x ∈ ips ∨ contributesV2 ev rsv x := by
  rcases rsv with ⟨insts⟩
  cases insts with
  | nil => simp [processReservation] at h
  | cons i rest =>
    have hcon : contributesV2 ev ⟨i :: rest⟩ x ↔
        (¬ (ev.lifecycleTransition = "autoscaling:EC2_INSTANCE_TERMINATING" ∧
            i.instanceId = ev.ec2InstanceID) ∧ qualifies i ∧
          x = i.publicIpAddress ++ "/32") := by
      constructor
      · rintro ⟨i2, rest2, heq, hp⟩
        have hi : i = i2 := by
          have : i :: rest = i2 :: rest2 := heq
          injection this
        exact hi ▸ hp
      · intro hp
        exact ⟨i, rest, rfl, hp⟩
    simp only [processReservation] at h
    split at h
    case isTrue hex =>
      injection h with h
      subst h
      rw [hcon]
      constructor
      · exact Or.inl
      · rintro (hx | ⟨hnex, _⟩)
        · exact hx
        · exact absurd hex hnex
    case isFalse hex =>
      split at h
      case isTrue hq =>
        injection h with h
        subst h
        rw [mem_mapInsert, hcon]
        constructor
        · rintro (hx | rfl)
          · exact Or.inl hx
          · exact Or.inr ⟨hex, hq, rfl⟩
        · rintro (hx | ⟨_, _, rfl⟩)
          · exact Or.inl hx
          · exact Or.inr rfl
      case isFalse hq =>
        injection h with h
        subst h
        rw [hcon]
        constructor
        · exact Or.inl
        · rintro (hx | ⟨_, hq2, _⟩)
          · exact hx
          · exact absurd hq2 hq

theorem processReservationV1_some_mem {ips : List String}
    {rsv : Reservation} {out : List String}
    (h : processReservationV1 ips rsv = some out) (x : String) :
    x ∈ out ↔ x ∈ ips ∨ contributesV1 rsv x := by
  rcases rsv with ⟨insts⟩
  cases insts with
  | nil => simp [processReservationV1] at h
  | cons i rest =>
    have hcon : contributesV1 ⟨i :: rest⟩ x ↔
        (qualifies i ∧ x = i.publicIpAddress ++ "/32") := by
      constructor
      · rintro ⟨i2, rest2, heq, hp⟩
        have hi : i = i2 := by
          have : i :: rest = i2 :: rest2 := heq
          injection this
        exact hi ▸ hp
      · intro hp
        exact ⟨i, rest, rfl, hp⟩
    simp only [processReservationV1] at h
    split at h
    case isTrue hq =>
      injection h with h
      subst h
      rw [mem_mapInsert, hcon]
      constructor
      · rintro (hx | rfl)
        · exact Or.inl hx
        · exact Or.inr ⟨hq, rfl⟩
      · rintro (hx | ⟨_, rfl⟩)
        · exact Or.inl hx
        · exact Or.inr rfl
    case isFalse hq =>
      injection h with h
      subst h
      rw [hcon]
      constructor
      · exact Or.inl
      · rintro (hx | ⟨hq2, _⟩)
        · exact hx
        · exact absurd hq2 hq

theorem processReservations_some_mem
    {step : List String → Reservation → Option (List String)}
    {C : Reservation → String → Prop}
    (hstep : ∀ ips rsv out, step ips rsv = some out →
      ∀ x, x ∈ out ↔ x ∈ ips ∨ C rsv x) :
    ∀ (rsvs : List Reservation) (ips out : List String),
      processReservations step ips rsvs = some out →
      ∀ x, x ∈ out ↔ x ∈ ips ∨ ∃ rsv ∈ rsvs, C rsv x := by
  intro rsvs
  induction rsvs with
  | nil =>
    intro ips out h x
    simp only [processReservations, Option.some.injEq] at h
    subst h
    simp
  | cons rsv rest ih =>
    intro ips out h x
    simp only [processReservations] at h
    cases hs : step ips rsv with
    | none => rw [hs] at h; exact absurd h (by simp)
    | some ips2 =>
      simp only [hs] at h
      rw [ih ips2 out h x, hstep ips rsv ips2 hs x]
      simp only [List.mem_cons]
      constructor
      · rintro ((hx | hc) | ⟨r, hr, hc⟩)
        · exact Or.inl hx
        · exact Or.inr ⟨rsv, Or.inl rfl, hc⟩
        · exact Or.inr ⟨r, Or.inr hr, hc⟩
      · rintro (hx | ⟨r, (rfl | hr), hc⟩)
        · exact Or.inl (Or.inl hx)
        · exact Or.inl (Or.inr hc)
        · exact Or.inr ⟨r, hr, hc⟩

theorem asgLoop_ok_mem
    {step : List String → Reservation → Option (List String)}
    {C : Reservation → String → Prop}
    (hstep : ∀ ips rsv out, step ips rsv = some out →
      ∀ x, x ∈ out ↔ x ∈ ips ∨ C rsv x)
    (descInst : String → Except String (List Reservation)) :
    ∀ (members ips l : List String),
      asgLoop step descInst ips members = .ok l →
      ∀ x, x ∈ l ↔ x ∈ ips ∨ ∃ id ∈ members, ∃ rsvs,
        descInst id = .ok rsvs ∧ ∃ rsv ∈ rsvs, C rsv x := by
  intro members
  induction members with
  | nil =>
    intro ips l h x
    simp only [asgLoop, GoResult.ok.injEq] at h
    subst h
    simp
  | cons id rest ih =>
    intro ips l h x
    simp only [asgLoop] at h
    cases hd : descInst id with
    | error e => rw [hd] at h; exact absurd h (by simp)
    | ok rsvs =>
      simp only [hd] at h
      cases hp : processReservations step ips rsvs with
      | none => rw [hp] at h; exact absurd h (by simp)
      | some ips2 =>
        simp only [hp] at h
        rw [ih ips2 l h x, processReservations_some_mem hstep rsvs ips ips2 hp x]
        simp only [List.mem_cons]
        constructor
        · rintro ((hx | ⟨r, hr, hc⟩) | ⟨id2, hid2, rsvs2, hd2, r, hr, hc⟩)
          · exact Or.inl hx
          · exact Or.inr ⟨id, Or.inl rfl, rsvs, hd, r, hr, hc⟩
          · exact Or.inr ⟨id2, Or.inr hid2, rsvs2, hd2, r, hr, hc⟩
        · rintro (hx | ⟨id2, (rfl | hid2), rsvs2, hd2, r, hr, hc⟩)
          · exact Or.inl (Or.inl hx)
          · rw [hd] at hd2
            injection hd2 with hd2
            subst hd2
            exact Or.inl (Or.inr ⟨r, hr, hc⟩)
          · exact Or.inr ⟨id2, hid2, rsvs2, hd2, r, hr, hc⟩

theorem asgLoop_ne_emptyErr
    {step : List String → Reservation → Option (List String)}
    {descInst : String → Except String (List Reservation)} :
    ∀ (members ips : List String),
      asgLoop step descInst ips members ≠ .err .emptyASGResponse := by
  intro members
  induction members with
  | nil => intro ips h; simp [asgLoop] at h
  | cons id rest ih =>
    intro ips h
    simp only [asgLoop] at h
    cases hd : descInst id with
    | error e => rw [hd] at h; simp at h
    | ok rsvs =>
      simp only [hd] at h
      cases hp : processReservations step ips rsvs with
      | none => rw [hp] at h; simp at h
      | some ips2 =>
        simp only [hp] at h
        exact ih ips2 h

theorem append_32_inj {p q : String} (h : p ++ "/32" = q ++ "/32") :
    p = q := by
  have hd := congrArg String.data h
  simp only [String.data_append] at hd
  exact String.ext (List.append_cancel_right hd)

theorem processReservation_some_nodup {ev : Detail} {ips : List String}
    {rsv : Reservation} {out : List String}
    (h : processReservation ev ips rsv = some out) (hn : ips.Nodup) :
    out.Nodup := by
  rcases rsv with ⟨insts⟩
  cases insts with
  | nil => simp [processReservation] at h
  | cons i rest =>
    simp only [processReservation] at h
    split at h
    · injection h with h; exact h ▸ hn
    · split at h
      · injection h with h; exact h ▸ nodup_mapInsert _ hn
      · injection h with h; exact h ▸ hn

theorem processReservationV1_some_nodup {ips : List String}
    {rsv : Reservation} {out : List String}
    (h : processReservationV1 ips rsv = some out) (hn : ips.Nodup) :
    out.Nodup := by
  rcases rsv with ⟨insts⟩
  cases insts with
  | nil => simp [processReservationV1] at h
  | cons i rest =>
    simp only [processReservationV1] at h
    split at h
    · injection h with h; exact h ▸ nodup_mapInsert _ hn
    · injection h with h; exact h ▸ hn

theorem processReservations_some_nodup
    {step : List String → Reservation → Option (List String)}
    (hstep : ∀ ips rsv out, step ips rsv = some out → ips.Nodup → out.Nodup) :
    ∀ (rsvs : List Reservation) (ips out : List String),
      processReservations step ips rsvs = some out → ips.Nodup → out.Nodup := by
  intro rsvs
  induction rsvs with
  | nil =>
    intro ips out h hn
    simp only [processReservations, Option.some.injEq] at h
    exact h ▸ hn
  | cons rsv rest ih =>
    intro ips out h hn
    simp only [processReservations] at h
    cases hs : step ips rsv with
    | none => rw [hs] at h; exact absurd h (by simp)
    | some ips2 =>
      simp only [hs] at h
      exact ih ips2 out h (hstep ips rsv ips2 hs hn)

theorem asgLoop_ok_nodup
    {step : List String → Reservation → Option (List String)}
    {descInst : String → Except String (List Reservation)}
    (hstep : ∀ ips rsv out, step ips rsv = some out → ips.Nodup → out.Nodup) :
    ∀ (members ips l : List String),
      asgLoop step descInst ips members = .ok l → ips.Nodup → l.Nodup := by
  intro members
  induction members with
  | nil =>
    intro ips l h hn
    simp only [asgLoop, GoResult.ok.injEq] at h
    exact h ▸ hn
  | cons id rest ih =>
    intro ips l h hn
    simp only [asgLoop] at h
    cases hd : descInst id with
    | error e => rw [hd] at h; exact absurd h (by simp)
    | ok rsvs =>
      simp only [hd] at h
      cases hp : processReservations step ips rsvs with
      | none => rw [hp] at h; exact absurd h (by simp)
      | some ips2 =>
        simp only [hp] at h
        exact ih ips2 l h
          (processReservations_some_nodup hstep rsvs ips ips2 hp hn)

theorem getASGPublicIPs_ok_nodup {ev : Detail}
    {descASG : Except String (Option ASGGroup)}
    {descInst : String → Except String (List Reservation)} {l : List String}
    (h : getASGPublicIPs ev descASG descInst = .ok l) : l.Nodup := by
  unfold getASGPublicIPs at h
  rcases descASG with e | g
  · exact absurd h (by simp)
  · rcases g with _ | g
    · exact absurd h (by simp)
    · exact asgLoop_ok_nodup
        (fun ips rsv out hs hn => processReservation_some_nodup hs hn)
        g.instances [] l h List.nodup_nil

theorem getASGPublicIPsV1_ok_nodup
    {descASG : Except String (Option ASGGroup)}
    {descInst : String → Except String (List Reservation)} {l : List String}
    (h : getASGPublicIPsV1 descASG descInst = .ok l) : l.Nodup := by
  unfold getASGPublicIPsV1 at h
  rcases descASG with e | g
  · exact absurd h (by simp)
  · rcases g with _ | g
    · exact absurd h (by simp)
    · exact asgLoop_ok_nodup
        (fun ips rsv out hs hn => processReservationV1_some_nodup hs hn)
        g.instances [] l h List.nodup_nil

theorem foldl_mapInsert_nodup :
    ∀ (rs : List IpRange) (m : List String), m.Nodup →
      (rs.foldl (fun acc r => mapInsert acc r.cidrIp) m).Nodup := by
  intro rs
  induction rs with
  | nil => intro m hm; exact hm
  | cons r rest ih =>
    intro m hm
    exact ih (mapInsert m r.cidrIp) (nodup_mapInsert _ hm)

theorem getSGIPs_ok_nodup {descSG : Except String (List SecurityGroup)}
    {o : List String} (h : getSGIPs descSG = .ok o) : o.Nodup := by
  rcases descSG with e | sgs
  · simp [getSGIPs] at h
  · rcases sgs with _ | ⟨sg, rest⟩
    · simp [getSGIPs] at h
    · rcases hperm : sg.ipPermissions with _ | ⟨perm, prest⟩
      · simp only [getSGIPs, hperm, GoResult.ok.injEq] at h
        exact h ▸ List.nodup_nil
      · simp only [getSGIPs, hperm, GoResult.ok.injEq] at h
        exact h ▸ foldl_mapInsert_nodup perm.ipRanges [] List.nodup_nil

theorem getASGPublicIPs_ok_mem {ev : Detail} {g : ASGGroup}
    {descInst : String → Except String (List Reservation)} {l : List String}
    (h : getASGPublicIPs ev (.ok (some g)) descInst = .ok l) (x : String) :
    x ∈ l ↔ ∃ id ∈ g.instances, ∃ rsvs, descInst id = .ok rsvs ∧
      ∃ rsv ∈ rsvs, contributesV2 ev rsv x := by
  have hmem := asgLoop_ok_mem
    (fun ips rsv out hs => processReservation_some_mem hs) descInst
    g.instances [] l (by simpa [getASGPublicIPs] using h) x
  simpa using hmem

theorem getASGPublicIPsV1_ok_mem {g : ASGGroup}
    {descInst : String → Except String (List Reservation)} {l : List String}
    (h : getASGPublicIPsV1 (.ok (some g)) descInst = .ok l) (x : String) :
    x ∈ l ↔ ∃ id ∈ g.instances, ∃ rsvs, descInst id = .ok rsvs ∧
      ∃ rsv ∈ rsvs, contributesV1 rsv x := by
  have hmem := asgLoop_ok_mem
    (fun ips rsv out hs => processReservationV1_some_mem hs) descInst
    g.instances [] l (by simpa [getASGPublicIPsV1] using h) x
  simpa using hmem

/-- C1: for every desired enumeration `d` and observed enumeration `o`,
the Set Differ computes `toAdd = D \ O` and `toRemove = O \ D` as sets:
membership characterizations, `toAdd` disjoint from `O`, `toRemove ⊆ O`,
`(O \ toRemove) ∪ toAdd = D` as sets, and the resulting sets depend only
on the membership of the containers, not on their iteration order. -/
theorem C1_diff_correct (d o : List String) :
    (∀ x, x ∈ getIPsToAdd d o ↔ x ∈ d ∧ x ∉ o) ∧
    (∀ x, x ∈ getIPsToRemove o d ↔ x ∈ o ∧ x ∉ d) ∧
    (∀ x ∈ getIPsToAdd d o, x ∉ o) ∧
    (∀ x ∈ getIPsToRemove o d, x ∈ o) ∧
    (∀ x, ((x ∈ o ∧ x ∉ getIPsToRemove o d) ∨ x ∈ getIPsToAdd d o) ↔ x ∈ d) ∧
    (∀ d2 o2 : List String, d.Perm d2 → o.Perm o2 →
      (∀ x, x ∈ getIPsToAdd d2 o2 ↔ x ∈ getIPsToAdd d o) ∧
      (∀ x, x ∈ getIPsToRemove o2 d2 ↔ x ∈ getIPsToRemove o d)) := by
  refine ⟨fun x => mem_getIPsToAdd, fun x => mem_getIPsToRemove, ?_, ?_, ?_, ?_⟩
  · intro x hx
    exact (mem_getIPsToAdd.mp hx).2
  · intro x hx
    exact (mem_getIPsToRemove.mp hx).1
  · intro x
    rw [mem_getIPsToAdd, mem_getIPsToRemove]
    by_cases hd : x ∈ d <;> by_cases ho : x ∈ o <;> simp [hd, ho]
  · intro d2 o2 hd ho
    constructor
    · intro x
      rw [mem_getIPsToAdd, mem_getIPsToAdd, hd.mem_iff, ho.mem_iff]
    · intro x
      rw [mem_getIPsToRemove, mem_getIPsToRemove, hd.mem_iff, ho.mem_iff]

/-- Witness for C1 at the spec's own scenario, with permuted
enumerations of both containers. -/
theorem C1_diff_correct_witness :
    (∀ x, x ∈ getIPsToAdd ["9.9.9.9/32", "5.6.7.8/32"] ["5.6.7.8/32", "1.2.3.4/32"] ↔
      x ∈ getIPsToAdd ["5.6.7.8/32", "9.9.9.9/32"] ["1.2.3.4/32", "5.6.7.8/32"]) ∧
    getIPsToAdd ["5.6.7.8/32", "9.9.9.9/32"] ["1.2.3.4/32", "5.6.7.8/32"] = ["9.9.9.9/32"] ∧
    getIPsToRemove ["1.2.3.4/32", "5.6.7.8/32"] ["5.6.7.8/32", "9.9.9.9/32"] = ["1.2.3.4/32"] :=
  ⟨((C1_diff_correct ["5.6.7.8/32", "9.9.9.9/32"] ["1.2.3.4/32", "5.6.7.8/32"]).2.2.2.2.2
      ["9.9.9.9/32", "5.6.7.8/32"] ["5.6.7.8/32", "1.2.3.4/32"]
      (by decide) (by decide)).1,
   by decide, by decide⟩

theorem examinedHead_single {id0 : String} {rsvs0 : List Reservation}
    {descInst : String → Except String (List Reservation)}
    (hdi : descInst id0 = .ok rsvs0) {i : RsvInstance}
    (hex : examinedHead ⟨[id0]⟩ descInst i) :
    ∃ rsv ∈ rsvs0, ∃ rest, rsv.instances = i :: rest := by
  obtain ⟨id, hid, rsvs, hok, rsv, hrsv, rest, hinst⟩ := hex
  have hi : id = id0 := by simpa using hid
  subst hi
  rw [hdi] at hok
  injection hok with hok
  subst hok
  exact ⟨rsv, hrsv, rest, hinst⟩

/-- C2: for every instance examined by the inventory read (the first
instance of a reservation of some member's detail lookup), a shutting-down
or terminated power state, or an empty/absent public address, keeps its IP
out of the returned desired set; every member of the desired set comes
from a qualifying examined instance and is recorded in `/32`-CIDR string
form.  Stated for both source variants. -/
theorem C2_inventory_state_filter (ev : Detail) (g : ASGGroup)
    (descInst : String → Except String (List Reservation)) (l : List String) :
    (getASGPublicIPs ev (.ok (some g)) descInst = .ok l →
      (∀ x ∈ l, ∃ i, examinedHead g descInst i ∧ qualifies i ∧
        x = i.publicIpAddress ++ "/32") ∧
      (∀ p : String,
        (∀ i, examinedHead g descInst i → i.publicIpAddress = p →
          i.stateName = "shutting-down" ∨ i.stateName = "terminated" ∨
            i.publicIpAddress = "") →
        p ++ "/32" ∉ l)) ∧
    (getASGPublicIPsV1 (.ok (some g)) descInst = .ok l →
      (∀ x ∈ l, ∃ i, examinedHead g descInst i ∧ qualifies i ∧
        x = i.publicIpAddress ++ "/32") ∧
      (∀ p : String,
        (∀ i, examinedHead g descInst i → i.publicIpAddress = p →
          i.stateName = "shutting-down" ∨ i.stateName = "terminated" ∨
            i.publicIpAddress = "") →
        p ++ "/32" ∉ l)) := by
  constructor
  · intro h
    have hm : ∀ x ∈ l, ∃ i, examinedHead g descInst i ∧ qualifies i ∧
        x = i.publicIpAddress ++ "/32" := by
      intro x hx
      obtain ⟨id, hid, rsvs, hok, rsv, hrsv, i, rest, hinst, hnex, hq, hxeq⟩ :=
        (getASGPublicIPs_ok_mem h x).mp hx
      exact ⟨i, ⟨id, hid, rsvs, hok, rsv, hrsv, rest, hinst⟩, hq, hxeq⟩
    refine ⟨hm, ?_⟩
    intro p hp hmem
    obtain ⟨i, hex, hq, heq⟩ := hm _ hmem
    have hip : i.publicIpAddress = p := (append_32_inj heq).symm
    rcases hp i hex hip with hbad | hbad | hbad
    · exact hq.1 hbad
    · exact hq.2.1 hbad
    · exact hq.2.2 hbad
  · intro h
    have hm : ∀ x ∈ l, ∃ i, examinedHead g descInst i ∧ qualifies i ∧
        x = i.publicIpAddress ++ "/32" := by
      intro x hx
      obtain ⟨id, hid, rsvs, hok, rsv, hrsv, i, rest, hinst, hq, hxeq⟩ :=
        (getASGPublicIPsV1_ok_mem h x).mp hx
      exact ⟨i, ⟨id, hid, rsvs, hok, rsv, hrsv, rest, hinst⟩, hq, hxeq⟩
    refine ⟨hm, ?_⟩
    intro p hp hmem
    obtain ⟨i, hex, hq, heq⟩ := hm _ hmem
    have hip : i.publicIpAddress = p := (append_32_inj heq).symm
    rcases hp i hex hip with hbad | hbad | hbad
    · exact hq.1 hbad
    · exact hq.2.1 hbad
    · exact hq.2.2 hbad

/-- Witness for C2: a terminated instance with public address 7.7.7.7
yields an empty desired set, and its IP is provably not a member. -/
theorem C2_inventory_state_filter_witness :
    ("7.7.7.7" ++ "/32") ∉ ([] : List String) := by
  have h := (C2_inventory_state_filter evLaunch ⟨["i-1"]⟩ descInstTerminated []).1
    (by rfl)
  refine h.2 "7.7.7.7" ?_
  intro i hex hip
  obtain ⟨rsv, hrsv, rest, hinst⟩ := examinedHead_single (by rfl) hex
  have hr : rsv = ⟨[⟨"i-1", "terminated", "7.7.7.7"⟩]⟩ := by
    simpa using hrsv
  subst hr
  have hinst2 : (⟨"i-1", "terminated", "7.7.7.7"⟩ : RsvInstance) = i ∧
      [] = rest := List.cons.inj hinst
  rw [← hinst2.1]
  exact Or.inr (Or.inl rfl)

/-- C3: on an invocation whose event carries the TERMINATING lifecycle
transition, the instance named in the event contributes no IP to the
desired set, even when it is still listed as a group member, running, and
holding a public address (the witness instantiates exactly that case). -/
theorem C3_terminating_instance_excluded (ev : Detail) (g : ASGGroup)
    (descInst : String → Except String (List Reservation)) (l : List String)
    (p : String)
    (hterm : ev.lifecycleTransition = "autoscaling:EC2_INSTANCE_TERMINATING")
    (h : getASGPublicIPs ev (.ok (some g)) descInst = .ok l)
    (hp : ∀ i, examinedHead g descInst i → i.publicIpAddress = p →
      i.instanceId = ev.ec2InstanceID) :
    p ++ "/32" ∉ l := by
  intro hmem
  obtain ⟨id, hid, rsvs, hok, rsv, hrsv, i, rest, hinst, hnex, hq, hxeq⟩ :=
    (getASGPublicIPs_ok_mem h _).mp hmem
  have hip : i.publicIpAddress = p := (append_32_inj hxeq).symm
  exact hnex ⟨hterm, hp i ⟨id, hid, rsvs, hok, rsv, hrsv, rest, hinst⟩ hip⟩

/-- Witness for C3: the TERMINATING event names i-1, which is still listed
as a member, is running, and has public address 3.3.3.3; the inventory
read returns the empty set and 3.3.3.3/32 is not a member. -/
theorem C3_terminating_instance_excluded_witness :
    ("3.3.3.3" ++ "/32") ∉ ([] : List String) := by
  refine C3_terminating_instance_excluded evTerm ⟨["i-1"]⟩ descInstRunning []
    "3.3.3.3" rfl (by rfl) ?_
  intro i hex hip
  obtain ⟨rsv, hrsv, rest, hinst⟩ := examinedHead_single (by rfl) hex
  have hr : rsv = rsvRunning "i-1" "3.3.3.3" := by simpa using hrsv
  subst hr
  have hinst2 : (⟨"i-1", "running", "3.3.3.3"⟩ : RsvInstance) = i ∧
      [] = rest := List.cons.inj hinst
  rw [← hinst2.1]
  rfl

theorem getIPsToRemove_nil_right (o : List String) :
    getIPsToRemove o [] = o := by
  simp [getIPsToRemove]

/-- C4: when the inventory read yields an empty desired set while the
group description is present, the handler still diffs and converges:
toRemove is the entire observed set, a revoke covering every observed
CIDR is issued whenever anything is observed, and the invocation
succeeds — an empty desired set is neither a no-op nor an error. -/
theorem C4_empty_desired_drains (env : Env) (request : Detail)
    (o : List String)
    (hsess : env.sessionErr = none)
    (hinv : getASGPublicIPs request env.descASG env.descInst = .ok [])
    (hsg : getSGIPs env.descSG = .ok o)
    (hrev : env.revokeErr = none) :
    getIPsToRemove o [] = o ∧
    (o ≠ [] →
      Handler env request =
        (.ret ⟨[], o⟩ none,
         [ProviderCall.revoke ⟨env.sgID, mkPermissions HTTPSPort HTTPSPort o⟩,
          sendResponseToASG env request LifecycleActionResultContinue]) ∧
      ∀ x ∈ o, (⟨HTTPSPort, HTTPSPort, [⟨x⟩], TCPProtocol⟩ : IpPermission) ∈
        mkPermissions HTTPSPort HTTPSPort o) ∧
    (o = [] →
      Handler env request =
        (.ret ⟨[], []⟩ none,
         [sendResponseToASG env request LifecycleActionResultContinue])) := by
  have hH : Handler env request =
      convergeV2 env request (getIPsToAdd [] o) (getIPsToRemove o []) := by
    simp only [Handler, hsess, hinv, hsg]
  have hta : getIPsToAdd [] o = [] := rfl
  have htr : getIPsToRemove o [] = o := getIPsToRemove_nil_right o
  refine ⟨htr, ?_, ?_⟩
  · intro ho
    constructor
    · rw [hH, hta, htr]
      have hlen : o.length ≠ 0 := by
        simpa [List.length_eq_zero] using ho
      simp [convergeV2, hlen, hrev]
    · intro x hx
      simp only [mkPermissions, List.mem_map]
      exact ⟨x, hx, rfl⟩
  · intro ho
    subst ho
    rw [hH, hta, htr]
    simp [convergeV2]

/-- Witness for C4: zero members, one stale observed CIDR — the handler
revokes it and succeeds. -/
theorem C4_empty_desired_drains_witness :
    Handler envDrain evLaunch =
      (.ret ⟨[], ["9.9.9.9/32"]⟩ none,
       [ProviderCall.revoke ⟨"sg-1", mkPermissions HTTPSPort HTTPSPort ["9.9.9.9/32"]⟩,
        sendResponseToASG envDrain evLaunch LifecycleActionResultContinue]) :=
  ((C4_empty_desired_drains envDrain evLaunch ["9.9.9.9/32"]
      rfl rfl rfl rfl).2.1 (by decide)).1

/-- C5: no authorize call is issued when toAdd is empty and no revoke
call when toRemove is empty; with zero qualifying instances and zero
rules the part_002 handler issues neither mutation (only the CONTINUE
acknowledgment) and returns two empty lists, and the main.go handler
issues no provider call at all. -/
theorem C5_no_empty_mutation_calls (env : Env) (request : Detail)
    (d o : List String)
    (hsess : env.sessionErr = none)
    (hinv : getASGPublicIPs request env.descASG env.descInst = .ok d)
    (hsg : getSGIPs env.descSG = .ok o) :
    (getIPsToAdd d o = [] →
      ∀ m, ProviderCall.authorize m ∉ (Handler env request).2) ∧
    (getIPsToRemove o d = [] →
      ∀ m, ProviderCall.revoke m ∉ (Handler env request).2) ∧
    (d = [] → o = [] →
      Handler env request =
        (.ret ⟨[], []⟩ none,
         [sendResponseToASG env request LifecycleActionResultContinue])) ∧
    (getASGPublicIPsV1 env.descASG env.descInst = .ok [] → o = [] →
      HandlerV1 env request = (.ret ⟨[], []⟩ none, [])) := by
  have hH : Handler env request =
      convergeV2 env request (getIPsToAdd d o) (getIPsToRemove o d) := by
    simp only [Handler, hsess, hinv, hsg]
  refine ⟨?_, ?_, ?_, ?_⟩
  · intro hta m
    rw [hH, hta]
    rcases hrE : env.revokeErr with _ | e <;>
      by_cases h2 : (getIPsToRemove o d).length ≠ 0 <;>
      simp [convergeV2, hrE, h2, sendResponseToASG]
  · intro htr m
    rw [hH, htr]
    rcases haE : env.authorizeErr with _ | e <;>
      by_cases h1 : (getIPsToAdd d o).length ≠ 0 <;>
      simp [convergeV2, haE, h1, sendResponseToASG]
  · intro hd ho
    subst hd
    subst ho
    rw [hH]
    simp [convergeV2, getIPsToAdd, getIPsToRemove]
  · intro hinv1 ho
    subst ho
    have hH1 : HandlerV1 env request =
        convergeV1 env (getIPsToAdd [] []) (getIPsToRemove [] []) := by
      simp only [HandlerV1, hsess, hinv1, hsg]
    rw [hH1]
    simp [convergeV1, getIPsToAdd, getIPsToRemove]

/-- Witness for C5: zero members, zero rules — part_002 issues only the
CONTINUE acknowledgment, main.go issues nothing, and both report two
empty lists. -/
theorem C5_no_empty_mutation_calls_witness :
    Handler envZero evLaunch =
      (.ret ⟨[], []⟩ none,
       [sendResponseToASG envZero evLaunch LifecycleActionResultContinue]) ∧
    HandlerV1 envZero evLaunch = (.ret ⟨[], []⟩ none, []) :=
  ⟨(C5_no_empty_mutation_calls envZero evLaunch [] [] rfl rfl rfl).2.2.1 rfl rfl,
   (C5_no_empty_mutation_calls envZero evLaunch [] [] rfl rfl rfl).2.2.2 rfl rfl⟩

/-- Counterexample to C6 as stated: with two running instances and no
existing rules, the single authorize call carries TWO permission entries
(one per added CIDR, each with a singleton range list), not one rule
entry covering all added CIDRs. -/
theorem C6_counterexample :
    (Handler envTwoAdds evLaunch).2 =
      [ProviderCall.authorize ⟨"sg-1",
         mkPermissions HTTPSPort HTTPSPort ["1.1.1.1/32", "2.2.2.2/32"]⟩,
       sendResponseToASG envTwoAdds evLaunch LifecycleActionResultContinue] ∧
    (mkPermissions HTTPSPort HTTPSPort ["1.1.1.1/32", "2.2.2.2/32"]).length = 2 ∧
    (mkPermissions HTTPSPort HTTPSPort ["1.1.1.1/32", "2.2.2.2/32"]).map
        IpPermission.ipRanges = [[⟨"1.1.1.1/32"⟩], [⟨"2.2.2.2/32"⟩]] :=
  ⟨rfl, by decide, by decide⟩

/-- C6 amended: for every non-empty toAdd, exactly one authorize call is
issued per invocation; it batches all additions into one call whose input
holds one permission entry PER added CIDR (each entry with protocol
"tcp", the fixed port range 443-443 and a singleton range list); at most
one revoke call is issued; and each address appears in at most one
add-permission entry and at most one remove-permission entry. -/
theorem C6_single_authorize_call (env : Env) (request : Detail)
    (d o : List String)
    (hsess : env.sessionErr = none)
    (hinv : getASGPublicIPs request env.descASG env.descInst = .ok d)
    (hsg : getSGIPs env.descSG = .ok o)
    (hne : getIPsToAdd d o ≠ []) :
    (Handler env request).2.filter isAuthorizeCall =
      [ProviderCall.authorize ⟨env.sgID,
        mkPermissions HTTPSPort HTTPSPort (getIPsToAdd d o)⟩] ∧
    ((Handler env request).2.filter isRevokeCall).length ≤ 1 ∧
    (∀ p ∈ mkPermissions HTTPSPort HTTPSPort (getIPsToAdd d o),
      p.ipProtocol = TCPProtocol ∧ p.fromPort = HTTPSPort ∧
        p.toPort = HTTPSPort ∧ ∃ ip ∈ getIPsToAdd d o, p.ipRanges = [⟨ip⟩]) ∧
    (∀ x, (getIPsToAdd d o).count x ≤ 1 ∧ (getIPsToRemove o d).count x ≤ 1) := by
  have hH : Handler env request =
      convergeV2 env request (getIPsToAdd d o) (getIPsToRemove o d) := by
    simp only [Handler, hsess, hinv, hsg]
  have h1 : (getIPsToAdd d o).length ≠ 0 := by
    simpa [List.length_eq_zero] using hne
  refine ⟨?_, ?_, ?_, ?_⟩
  · rw [hH]
    rcases haE : env.authorizeErr with _ | e <;>
      rcases hrE : env.revokeErr with _ | e2 <;>
      by_cases h2 : (getIPsToRemove o d).length ≠ 0 <;>
      simp [convergeV2, haE, hrE, h1, h2, sendResponseToASG,
        isAuthorizeCall, isRevokeCall, List.filter]
  · rw [hH]
    rcases haE : env.authorizeErr with _ | e <;>
      rcases hrE : env.revokeErr with _ | e2 <;>
      by_cases h2 : (getIPsToRemove o d).length ≠ 0 <;>
      simp [convergeV2, haE, hrE, h1, h2, sendResponseToASG,
        isAuthorizeCall, isRevokeCall, List.filter]
  · intro p hp
    simp only [mkPermissions, List.mem_map] at hp
    obtain ⟨ip, hip, rfl⟩ := hp
    exact ⟨rfl, rfl, rfl, ip, hip, rfl⟩
  · intro x
    constructor
    · exact List.nodup_iff_count_le_one.mp
        (nodup_getIPsToAdd (getASGPublicIPs_ok_nodup hinv)) x
    · exact List.nodup_iff_count_le_one.mp
        (nodup_getIPsToRemove (getSGIPs_ok_nodup hsg)) x

/-- Witness for the amended C6 at the two-addition environment. -/
theorem C6_single_authorize_call_witness :
    (Handler envTwoAdds evLaunch).2.filter isAuthorizeCall =
      [ProviderCall.authorize ⟨"sg-1",
        mkPermissions HTTPSPort HTTPSPort ["1.1.1.1/32", "2.2.2.2/32"]⟩] :=
  (C6_single_authorize_call envTwoAdds evLaunch
    ["1.1.1.1/32", "2.2.2.2/32"] [] rfl rfl rfl (by decide)).1

/-- C7: the inventory read fails with the GroupNotFound error (the
distinguished "autoscaling group response is empty" error) exactly when
the provider returns an empty/absent group description; a present group
with an empty member list is not an error and yields the empty desired
set.  Both variants. -/
theorem C7_group_not_found_iff (ev : Detail)
    (descASG : Except String (Option ASGGroup))
    (descInst : String → Except String (List Reservation)) :
    ((getASGPublicIPs ev descASG descInst = .err .emptyASGResponse) ↔
      descASG = .ok none) ∧
    ((getASGPublicIPsV1 descASG descInst = .err .emptyASGResponse) ↔
      descASG = .ok none) ∧
    (∀ g : ASGGroup, g.instances = [] → descASG = .ok (some g) →
      getASGPublicIPs ev descASG descInst = .ok [] ∧
      getASGPublicIPsV1 descASG descInst = .ok []) := by
  refine ⟨⟨?_, ?_⟩, ⟨?_, ?_⟩, ?_⟩
  · intro h
    rcases descASG with e | g
    · simp [getASGPublicIPs] at h
    · rcases g with _ | g
      · rfl
      · simp only [getASGPublicIPs] at h
        exact absurd h (asgLoop_ne_emptyErr g.instances [])
  · intro h
    subst h
    rfl
  · intro h
    rcases descASG with e | g
    · simp [getASGPublicIPsV1] at h
    · rcases g with _ | g
      · rfl
      · simp only [getASGPublicIPsV1] at h
        exact absurd h (asgLoop_ne_emptyErr g.instances [])
  · intro h
    subst h
    rfl
  · intro g hg hd
    subst hd
    rcases g with ⟨insts⟩
    simp only at hg
    subst hg
    exact ⟨rfl, rfl⟩

/-- Witness for C7: the absent description fails with the GroupNotFound
error; a present group with zero members yields the empty desired set. -/
theorem C7_group_not_found_iff_witness :
    getASGPublicIPs evLaunch (.ok none) (descInstOf []) =
      .err .emptyASGResponse ∧
    getASGPublicIPs evLaunch (.ok (some ⟨[]⟩)) (descInstOf []) = .ok [] :=
  ⟨(C7_group_not_found_iff evLaunch (.ok none) (descInstOf [])).1.mpr rfl,
   ((C7_group_not_found_iff evLaunch (.ok (some ⟨[]⟩)) (descInstOf [])).2.2
     ⟨[]⟩ rfl rfl).1⟩

/-- C8: a failing inventory read, rules read, authorize or revoke
short-circuits the remaining steps, records an ABANDON acknowledgment
(best-effort: it is recorded whatever the acknowledgment's own outcome),
and returns the error with the zero-value response (both lists empty, no
partial-success payload).  After a successful authorize and a failed
revoke, the only revoke call covers toRemove, which is disjoint from
toAdd — the freshly added IPs are not reverted. -/
theorem C8_failure_short_circuit (env : Env) (request : Detail)
    (hsess : env.sessionErr = none) :
    (∀ e, getASGPublicIPs request env.descASG env.descInst = .err e →
      Handler env request = (.ret ⟨[], []⟩ (some e),
        [sendResponseToASG env request LifecycleActionResultAbandon])) ∧
    (∀ e d, getASGPublicIPs request env.descASG env.descInst = .ok d →
      getSGIPs env.descSG = .err e →
      Handler env request = (.ret ⟨[], []⟩ (some e),
        [sendResponseToASG env request LifecycleActionResultAbandon])) ∧
    (∀ e d o, getASGPublicIPs request env.descASG env.descInst = .ok d →
      getSGIPs env.descSG = .ok o →
      env.authorizeErr = some e → getIPsToAdd d o ≠ [] →
      Handler env request = (.ret ⟨[], []⟩ (some (.provider e)),
        [ProviderCall.authorize ⟨env.sgID,
           mkPermissions HTTPSPort HTTPSPort (getIPsToAdd d o)⟩,
         sendResponseToASG env request LifecycleActionResultAbandon])) ∧
    (∀ e d o, getASGPublicIPs request env.descASG env.descInst = .ok d →
      getSGIPs env.descSG = .ok o →
      env.authorizeErr = none → env.revokeErr = some e →
      getIPsToRemove o d ≠ [] →
      Handler env request = (.ret ⟨[], []⟩ (some (.provider e)),
        (if getIPsToAdd d o = [] then [] else
          [ProviderCall.authorize ⟨env.sgID,
            mkPermissions HTTPSPort HTTPSPort (getIPsToAdd d o)⟩]) ++
        [ProviderCall.revoke ⟨env.sgID,
           mkPermissions HTTPSPort HTTPSPort (getIPsToRemove o d)⟩,
         sendResponseToASG env request LifecycleActionResultAbandon]) ∧
      ∀ x ∈ getIPsToAdd d o, x ∉ getIPsToRemove o d) := by
  refine ⟨?_, ?_, ?_, ?_⟩
  · intro e hinv
    simp only [Handler, hsess, hinv]
  · intro e d hinv hsg
    simp only [Handler, hsess, hinv, hsg]
  · intro e d o hinv hsg haE hne
    have h1 : (getIPsToAdd d o).length ≠ 0 := by
      simpa [List.length_eq_zero] using hne
    simp only [Handler, hsess, hinv, hsg]
    simp [convergeV2, h1, haE]
  · intro e d o hinv hsg haE hrE hne
    have h2 : (getIPsToRemove o d).length ≠ 0 := by
      simpa [List.length_eq_zero] using hne
    constructor
    · simp only [Handler, hsess, hinv, hsg]
      by_cases h1 : (getIPsToAdd d o).length ≠ 0
      · have h1' : ¬ getIPsToAdd d o = [] := by
          simpa [List.length_eq_zero] using h1
        simp [convergeV2, h1, h2, haE, hrE, h1']
      · have h1' : getIPsToAdd d o = [] := by
          simpa [List.length_eq_zero] using h1
        simp [convergeV2, h1, h2, haE, hrE, h1']
    · intro x hx
      rw [mem_getIPsToAdd] at hx
      rw [mem_getIPsToRemove]
      intro hmem
      exact hx.2 hmem.1

/-- Witness for C8 at the revoke-failure environment: one IP added, the
revoke of the stale CIDR fails, the invocation returns the provider error
with empty lists, acknowledges ABANDON, and never revokes the added IP. -/
theorem C8_failure_short_circuit_witness :
    Handler envRevokeFail evLaunch =
      (.ret ⟨[], []⟩ (some (.provider "revoke failed")),
       [ProviderCall.authorize ⟨"sg-1",
          mkPermissions HTTPSPort HTTPSPort ["1.1.1.1/32"]⟩,
        ProviderCall.revoke ⟨"sg-1",
          mkPermissions HTTPSPort HTTPSPort ["9.9.9.9/32"]⟩,
        sendResponseToASG envRevokeFail evLaunch
          LifecycleActionResultAbandon]) ∧
    "1.1.1.1/32" ∉ getIPsToRemove ["9.9.9.9/32"] ["1.1.1.1/32"] := by
  have h := (C8_failure_short_circuit envRevokeFail evLaunch rfl).2.2.2
    "revoke failed" ["1.1.1.1/32"] ["9.9.9.9/32"] rfl rfl rfl rfl (by decide)
  exact ⟨by simpa using h.1, h.2 "1.1.1.1/32" (by decide)⟩

theorem convergeV2_fst_ack_irrel (se : Option String)
    (dA : Except String (Option ASGGroup))
    (dI : String → Except String (List Reservation))
    (dS : Except String (List SecurityGroup))
    (aE rE a1 a2 : Option String) (sg : String) (request : Detail)
    (ta tr : List String) :
    (convergeV2 ⟨se, dA, dI, dS, aE, rE, a1, sg⟩ request ta tr).1 =
      (convergeV2 ⟨se, dA, dI, dS, aE, rE, a2, sg⟩ request ta tr).1 := by
  rcases aE with _ | e <;> rcases rE with _ | e2 <;>
    by_cases h1 : ta.length ≠ 0 <;> by_cases h2 : tr.length ≠ 0 <;>
    simp [convergeV2, h1, h2]

theorem convergeV2_success_has_continue (env : Env) (request : Detail)
    (ta tr : List String) (r : Response)
    (h : (convergeV2 env request ta tr).1 = .ret r none) :
    sendResponseToASG env request LifecycleActionResultContinue ∈
      (convergeV2 env request ta tr).2 := by
  rcases haE : env.authorizeErr with _ | e <;>
    rcases hrE : env.revokeErr with _ | e2 <;>
    by_cases h1 : ta.length ≠ 0 <;> by_cases h2 : tr.length ≠ 0 <;>
    simp [convergeV2, h1, h2, haE, hrE] at h ⊢

/-- C9: the outcome of the lifecycle acknowledgment never changes the
handler's result: the result component is the same for every
acknowledgment outcome, and whenever convergence succeeded a CONTINUE
acknowledgment is part of the trace (even if the acknowledgment call
itself failed, as the witness instantiates). -/
theorem C9_ack_outcome_irrelevant (env : Env) (request : Detail)
    (ackE : Option String) :
    ((Handler { env with ackErr := ackE } request).1 =
      (Handler env request).1) ∧
    (∀ r : Response, (Handler env request).1 = .ret r none →
      env.sessionErr = none →
      sendResponseToASG env request LifecycleActionResultContinue ∈
        (Handler env request).2) := by
  obtain ⟨se, dA, dI, dS, aE, rE, ackOld, sg⟩ := env
  constructor
  · cases se with
    | some e => rfl
    | none =>
      cases hinv : getASGPublicIPs request dA dI with
      | crashed => simp [Handler, hinv]
      | err e => simp [Handler, hinv]
      | ok d =>
        cases hsg2 : getSGIPs dS with
        | crashed => simp [Handler, hinv, hsg2]
        | err e => simp [Handler, hinv, hsg2]
        | ok o =>
          simp only [Handler, hinv, hsg2]
          exact convergeV2_fst_ack_irrel none dA dI dS aE rE ackE ackOld
            sg request (getIPsToAdd d o) (getIPsToRemove o d)
  · intro r hret hse
    simp only at hse
    subst hse
    cases hinv : getASGPublicIPs request dA dI with
    | crashed => simp [Handler, hinv] at hret
    | err e => simp [Handler, hinv] at hret
    | ok d =>
      cases hsg2 : getSGIPs dS with
      | crashed => simp [Handler, hinv, hsg2] at hret
      | err e => simp [Handler, hinv, hsg2] at hret
      | ok o =>
        simp only [Handler, hinv, hsg2] at hret ⊢
        exact convergeV2_success_has_continue _ request _ _ r hret

/-- Witness for C9: with a failing acknowledgment call the result equals
the result under a succeeding acknowledgment, and the (failed) CONTINUE
acknowledgment is still part of the successful invocation's trace. -/
theorem C9_ack_outcome_irrelevant_witness :
    ((Handler { envZero with ackErr := some "ack failed" } evLaunch).1 =
      (Handler envZero evLaunch).1) ∧
    sendResponseToASG envZero evLaunch LifecycleActionResultContinue ∈
      (Handler envZero evLaunch).2 :=
  ⟨(C9_ack_outcome_irrelevant envZero evLaunch (some "ack failed")).1,
   (C9_ack_outcome_irrelevant envZero evLaunch (some "ack failed")).2
     ⟨[], []⟩ rfl rfl⟩

theorem processReservations_trunc
    {step : List String → Reservation → Option (List String)}
    (hstep : ∀ ips r, step ips ⟨r.instances.take 1⟩ = step ips r) :
    ∀ (rsvs : List Reservation) (ips : List String),
      processReservations step ips (truncRsvs rsvs) =
        processReservations step ips rsvs := by
  intro rsvs
  induction rsvs with
  | nil => intro ips; rfl
  | cons rsv rest ih =>
    intro ips
    simp only [truncRsvs, List.map_cons, processReservations, hstep]
    cases step ips rsv with
    | none => rfl
    | some ips2 => exact ih ips2

theorem asgLoop_trunc
    {step : List String → Reservation → Option (List String)}
    {dI dI' : String → Except String (List Reservation)}
    (hstep : ∀ ips r, step ips ⟨r.instances.take 1⟩ = step ips r)
    (hdi : ∀ id, dI' id = (dI id).map truncRsvs) :
    ∀ (members ips : List String),
      asgLoop step dI' ips members = asgLoop step dI ips members := by
  intro members
  induction members with
  | nil => intro ips; rfl
  | cons id rest ih =>
    intro ips
    simp only [asgLoop, hdi id]
    cases dI id with
    | error e => rfl
    | ok rsvs =>
      simp only [Except.map]
      rw [show truncRsvs rsvs = (truncRsvs rsvs) from rfl,
        processReservations_trunc hstep rsvs ips]
      cases processReservations step ips rsvs with
      | none => rfl
      | some ips2 => exact ih ips2

/-- C10: per detail lookup only the FIRST instance of each reservation is
examined: the loop body ignores everything behind the head (for both
variants), the whole inventory read is unchanged when every reservation
is truncated to its first instance, and a reservation with an empty
instance list makes the read panic — such inputs are outside the handled
domain. -/
theorem C10_first_instance_only (ev : Detail)
    (dI dI' : String → Except String (List Reservation)) :
    (∀ ips i rest rest',
      processReservation ev ips ⟨i :: rest⟩ =
        processReservation ev ips ⟨i :: rest'⟩) ∧
    (∀ ips i rest rest',
      processReservationV1 ips ⟨i :: rest⟩ =
        processReservationV1 ips ⟨i :: rest'⟩) ∧
    ((∀ id, dI' id = (dI id).map truncRsvs) →
      ∀ descASG, getASGPublicIPs ev descASG dI' =
          getASGPublicIPs ev descASG dI ∧
        getASGPublicIPsV1 descASG dI' = getASGPublicIPsV1 descASG dI) ∧
    (∀ (g : ASGGroup) (id0 : String) (mrest : List String)
      (rsvs : List Reservation),
      g.instances = id0 :: mrest → dI id0 = .ok (⟨[]⟩ :: rsvs) →
      getASGPublicIPs ev (.ok (some g)) dI = .crashed ∧
      getASGPublicIPsV1 (.ok (some g)) dI = .crashed) := by
  refine ⟨fun ips i rest rest' => rfl, fun ips i rest rest' => rfl, ?_, ?_⟩
  · intro hdi descASG
    have hstep2 : ∀ ips r, processReservation ev ips ⟨r.instances.take 1⟩ =
        processReservation ev ips r := by
      intro ips r
      rcases r with ⟨insts⟩
      cases insts with
      | nil => rfl
      | cons i rest => rfl
    have hstep1 : ∀ ips r, processReservationV1 ips ⟨r.instances.take 1⟩ =
        processReservationV1 ips r := by
      intro ips r
      rcases r with ⟨insts⟩
      cases insts with
      | nil => rfl
      | cons i rest => rfl
    rcases descASG with e | g
    · exact ⟨rfl, rfl⟩
    · rcases g with _ | g
      · exact ⟨rfl, rfl⟩
      · exact ⟨asgLoop_trunc hstep2 hdi g.instances [],
          asgLoop_trunc hstep1 hdi g.instances []⟩
  · intro g id0 mrest rsvs hg hdi0
    rcases g with ⟨insts⟩
    simp only at hg
    subst hg
    constructor
    · simp [getASGPublicIPs, asgLoop, hdi0, processReservations,
        processReservation]
    · simp [getASGPublicIPsV1, asgLoop, hdi0, processReservations,
        processReservationV1]

/-- Witness for C10: a trailing second instance behind the reservation
head never changes the inventory read, and an empty reservation makes the
read panic. -/
theorem C10_first_instance_only_witness :
    getASGPublicIPs evLaunch (.ok (some ⟨["i-1"]⟩)) descInstWithTail =
      .ok ["1.1.1.1/32"] ∧
    getASGPublicIPs evLaunch (.ok (some ⟨["i-1"]⟩)) descInstHeadOnly =
      getASGPublicIPs evLaunch (.ok (some ⟨["i-1"]⟩)) descInstWithTail ∧
    getASGPublicIPs evLaunch (.ok (some ⟨["i-1"]⟩))
        (descInstOf [("i-1", [⟨[]⟩])]) = .crashed := by
  refine ⟨rfl, ?_, ?_⟩
  · refine ((C10_first_instance_only evLaunch descInstWithTail
      descInstHeadOnly).2.2.1 ?_ (.ok (some ⟨["i-1"]⟩))).1
    intro id
    by_cases h : id = "i-1"
    · subst h
      rfl
    · have hb : (id == "i-1") = false := beq_eq_false_iff_ne.mpr h
      simp [descInstHeadOnly, descInstWithTail, descInstOf, List.lookup, hb,
        Except.map]
  · exact ((C10_first_instance_only evLaunch
      (descInstOf [("i-1", [⟨[]⟩])]) (descInstOf [])).2.2.2
      ⟨["i-1"]⟩ "i-1" [] [] rfl rfl).1

end AutoUpdateSG
